import Mathlib

/-!
Verification of `lumos.py`, a terminal background-color detector.

The Python source is embedded shallowly:

* strings become `List Char`; raw terminal bytes become `List ℕ`;
* `int(x, 16)` becomes `pyInt16` (strip, optional sign, hex digits with
  CPython's underscore rule), returning `Except PyErr ℤ` because CPython
  raises `ValueError` on malformed input;
* `round` on CPython floats becomes `pyRound : ℚ → ℤ` (round half to even);
  for the values reached here (`n * 255 / 65535` with `0 ≤ n ≤ 65535` and
  exact value `n / 257`, never half-way and at distance ≥ 1/514 from any
  half-integer while the float error is ≤ 255·2⁻⁵², far below that) the
  rational model agrees with the float computation;
* the sRGB luminance pipeline, which the source computes on floats with a
  real exponent 2.4, is embedded relationally over `ℝ`;
* the terminal probe's mode mutation and its polling loop are embedded as
  explicit state passing over a `Termios` record and a chunk stream.
-/

namespace Lumos

/-! ## Python error and `int(x, 16)` -/

/-- The error taxonomy relevant here: `int` and tuple unpacking raise
`ValueError`, which `lumos.py` never catches. -/
inductive PyErr where
  | valueError
deriving DecidableEq, Repr

/-- CPython terminates on an uncaught exception with exit status 1
(after printing a traceback to stderr). -/
def pyUncaughtExitCode (_ : PyErr) : ℕ := 1

/-- ASCII whitespace stripped by `str.strip()` and skipped by `int`
(the inputs reached here are ASCII). -/
def isPySpace (c : Char) : Bool :=
  c.toNat = 9 || c.toNat = 10 || c.toNat = 11 || c.toNat = 12 ||
    c.toNat = 13 || c.toNat = 32

/-- Hex digit recognizer of `int(x, 16)`: `0-9`, `a-f`, `A-F`. -/
def isHexDigit (c : Char) : Bool :=
  (48 ≤ c.toNat && c.toNat ≤ 57) || (97 ≤ c.toNat && c.toNat ≤ 102) ||
    (65 ≤ c.toNat && c.toNat ≤ 70)

/-- Value of a hex digit. -/
def hexDigitVal (c : Char) : ℕ :=
  if 48 ≤ c.toNat ∧ c.toNat ≤ 57 then c.toNat - 48
  else if 97 ≤ c.toNat then c.toNat - 87
  else c.toNat - 55

/-- Strip characters satisfying `p` from both ends (Python `str.strip()`). -/
def stripChars (p : Char → Bool) (s : List Char) : List Char :=
  ((s.dropWhile p).reverse.dropWhile p).reverse

/-- Digit run of CPython's integer literal grammar after the sign:
`hexdigit (underscore? hexdigit)*`, accumulating the value. -/
def pyHexBodyAux (acc : ℕ) : List Char → Option ℕ
  | [] => some acc
  | c :: rest =>
    if c = '_' then
      match rest with
      | [] => none
      | c2 :: rest2 =>
        if isHexDigit c2 then pyHexBodyAux (16 * acc + hexDigitVal c2) rest2
        else none
    else if isHexDigit c then pyHexBodyAux (16 * acc + hexDigitVal c) rest
    else none

/-- A nonempty hex-digit run (underscores allowed between digits), or `none`. -/
def pyHexBody : List Char → Option ℕ
  | [] => none
  | c :: rest =>
    if isHexDigit c then pyHexBodyAux (hexDigitVal c) rest else none

/-- The digit part of `int(x, 16)` after the sign: an optional `0x`/`0X`
prefix (base 16), optionally followed by one underscore, then the digit
run. -/
def pyInt16Digits (t : List Char) : Option ℕ :=
  match t with
  | c0 :: c1 :: rest =>
    if c0 = '0' ∧ (c1 = 'x' ∨ c1 = 'X') then
      match rest with
      | r0 :: rest2 => if r0 = '_' then pyHexBody rest2 else pyHexBody rest
      | [] => pyHexBody rest
    else pyHexBody t
  | _ => pyHexBody t

/-- CPython `int(x, 16)`: strip whitespace, optional sign, optional
`0x`/`0X` prefix, hex digit run; raises `ValueError` on anything else. -/
def pyInt16 (x : List Char) : Except PyErr ℤ :=
  match stripChars isPySpace x with
  | [] => .error .valueError
  | c :: rest =>
    if c = '+' then
      match pyInt16Digits rest with
      | some n => .ok (n : ℤ)
      | none => .error .valueError
    else if c = '-' then
      match pyInt16Digits rest with
      | some n => .ok (-(n : ℤ))
      | none => .error .valueError
    else
      match pyInt16Digits (c :: rest) with
      | some n => .ok (n : ℤ)
      | none => .error .valueError

/-- CPython `round` to an integer: nearest, ties to even. -/
def pyRound (q : ℚ) : ℤ :=
  if q - ⌊q⌋ < 1/2 then ⌊q⌋
  else if 1/2 < q - ⌊q⌋ then ⌊q⌋ + 1
  else if 2 ∣ ⌊q⌋ then ⌊q⌋ else ⌊q⌋ + 1

/-! ## `parse_rgb` -/

/-- Python `s.split(sep)` for a one-character separator: split on every
occurrence, keeping empty pieces; `"" → [""]`. -/
def splitOnChar (sep : Char) : List Char → List (List Char)
  | [] => [[]]
  | c :: rest =>
    match splitOnChar sep rest with
    | [] => [[]]
    | grp :: gs => if c = sep then [] :: grp :: gs else (c :: grp) :: gs

/-- Python `s.split(":", 1)[1]`: everything after the first occurrence of `sep`
(only used under a guard guaranteeing `sep` occurs). -/
def afterFirst (sep : Char) (s : List Char) : List Char :=
  (s.dropWhile (fun c => c ≠ sep)).drop 1

/-- Python `s.startswith(p)`. -/
def startsWith (p s : List Char) : Bool := p.isPrefixOf s

/-- The hex-channel helper `h` of `parse_rgb`: `int(x, 16)`, used verbatim
when the token has exactly 2 characters, otherwise scaled by
`round(n / 65535 * 255)`. -/
def h (x : List Char) : Except PyErr ℤ := do
  let n ← pyInt16 x
  if x.length = 2 then pure n
  else pure (pyRound ((n : ℚ) * 255 / 65535))

/-- Decimal digit. -/
def isDecDigit (c : Char) : Bool := 48 ≤ c.toNat && c.toNat ≤ 57

/-- Decimal value of a digit run. -/
def decVal (s : List Char) : ℕ :=
  s.foldl (fun a c => 10 * a + (c.toNat - 48)) 0

/-- Matcher for the anchored regex `rgb\((\d+),\s*(\d+),\s*(\d+)\)` used by
`re.match` in `parse_rgb` (a match need not reach the end of the string). -/
def matchRgbParen (s : List Char) : Option (ℕ × ℕ × ℕ) :=
  match s with
  | 'r' :: 'g' :: 'b' :: '(' :: rest =>
    let d1 := rest.takeWhile isDecDigit
    let r1 := rest.dropWhile isDecDigit
    if d1 = [] then none else
    match r1 with
    | ',' :: r2 =>
      let r2s := r2.dropWhile isPySpace
      let d2 := r2s.takeWhile isDecDigit
      let r3 := r2s.dropWhile isDecDigit
      if d2 = [] then none else
      match r3 with
      | ',' :: r4 =>
        let r4s := r4.dropWhile isPySpace
        let d3 := r4s.takeWhile isDecDigit
        let r5 := r4s.dropWhile isDecDigit
        if d3 = [] then none else
        match r5 with
        | ')' :: _ => some (decVal d1, decVal d2, decVal d3)
        | _ => none
      | _ => none
    | _ => none
  | _ => none

/-- The function `parse_rgb(s)`. Faithful to the source, including its exceptions: with
an `rgb:`/`rgba:` prefix, `r, g, b = parts[:3]` raises `ValueError` when
fewer than three `/`-separated parts exist, and `int(x, 16)` raises
`ValueError` on a malformed hex token. The `rgb(...)` decimal digits can
never make `int` fail. -/
def parse_rgb (s0 : List Char) : Except PyErr (Option (ℤ × ℤ × ℤ)) :=
  let s := stripChars isPySpace s0
  if startsWith ('r' :: 'g' :: 'b' :: ':' :: []) s ||
      startsWith ('r' :: 'g' :: 'b' :: 'a' :: ':' :: []) s then
    match splitOnChar '/' (afterFirst ':' s) with
    | r :: g :: b :: _ => do
      let hr ← h r
      let hg ← h g
      let hb ← h b
      pure (some (hr, hg, hb))
    | _ => .error .valueError
  else if startsWith ('#' :: []) s && (s.length = 7 || s.length = 9) then do
    let r ← pyInt16 ((s.drop 1).take 2)
    let g ← pyInt16 ((s.drop 3).take 2)
    let b ← pyInt16 ((s.drop 5).take 2)
    pure (some (r, g, b))
  else
    match matchRgbParen s with
    | some (r, g, b) => .ok (some ((r : ℤ), (g : ℤ), (b : ℤ)))
    | none => .ok none

/-- Convenience: the characters of a string literal. -/
def chars (s : String) : List Char := s.data

/-- The value of a string of hex digits, most significant first. -/
def hexVal (s : List Char) : ℕ := s.foldl (fun a c => 16 * a + hexDigitVal c) 0

/-- A channel token of hex digits only, nonempty. -/
def HexToken (s : List Char) : Prop :=
  s ≠ [] ∧ ∀ c ∈ s, isHexDigit c = true

instance (s : List Char) : Decidable (HexToken s) := by
  unfold HexToken; infer_instance

/-- Stated from the claim's words, for comparison with `h`: rescale a
hex token from its native range `2^(4·len) − 1` down to 0–255. -/
def specNativeScale (s : List Char) : ℤ :=
  pyRound ((hexVal s : ℚ) / (2 ^ (4 * s.length) - 1) * 255)

/-! ## Luminance and classification (§ lines 92–109, 118–122)

The source computes on floats, with a genuine real exponent `2.4`; the
embedding states the same formulas relationally over `ℝ`. -/

/-- The fixed classification threshold `DARK_THRESHOLD = 0.5`. -/
def DARK_THRESHOLD : ℝ := 0.5

/-- The sRGB linearization `lin` of `luminance`: `c / 12.92` when
`c ≤ 0.04045`, else `((c + 0.055) / 1.055) ** 2.4`. -/
def linRel (c l : ℝ) : Prop :=
  (c ≤ 0.04045 ∧ l = c / 12.92) ∨
    (0.04045 < c ∧ l = ((c + 0.055) / 1.055) ^ (2.4 : ℝ))

/-- The function `luminance(rgb)`: channels divided by 255, linearized, and summed with
the BT.709 weights. -/
def luminanceRel (rgb : ℤ × ℤ × ℤ) (lum : ℝ) : Prop :=
  ∃ lr lg lb : ℝ,
    linRel ((rgb.1 : ℝ) / 255) lr ∧ linRel ((rgb.2.1 : ℝ) / 255) lg ∧
      linRel ((rgb.2.2 : ℝ) / 255) lb ∧
      lum = 0.2126 * lr + 0.7152 * lg + 0.0722 * lb

/-- The final write of the module body: `"dark"` when
`lum < DARK_THRESHOLD`, else `"light"`. -/
def classifyRel (lum : ℝ) (out : String) : Prop :=
  (lum < DARK_THRESHOLD ∧ out = "dark") ∨ (DARK_THRESHOLD ≤ lum ∧ out = "light")

/-! ## The module body (lines 112–127) -/

/-- Lines 112–115: `parse_rgb(reply) if reply else None`, with `None` and
the empty string both falsy; an uncaught `ValueError` of `parse_rgb`
propagates. -/
def pipelineRGB (reply : Option (List Char)) : Except PyErr (Option (ℤ × ℤ × ℤ)) :=
  match reply with
  | none => .ok none
  | some r => if r = [] then .ok none else parse_rgb r

/-- The observable end of a run, given the probe's reply: stdout text and
exit status. `False` in the error case records that no `(out, code)` pair
is produced by the module body itself (CPython aborts instead). -/
def mainOutcome (reply : Option (List Char)) (out : String) (code : ℕ) : Prop :=
  match pipelineRGB reply with
  | .error _ => False
  | .ok none => out = "unknown" ∧ code = 2
  | .ok (some rgb) => ∃ lum, luminanceRel rgb lum ∧ classifyRel lum out ∧ code = 0

/-! ## Terminal probe: mode mutation (lines 36–56) -/

/-- Linux `termios.ICANON`. -/
def ICANON : ℕ := 2

/-- Linux `termios.ECHO`. -/
def ECHO : ℕ := 8

/-- One `termios.tcgetattr` record:
`[iflag, oflag, cflag, lflag, ispeed, ospeed, cc]`. -/
structure Termios where
  iflag : ℕ
  oflag : ℕ
  cflag : ℕ
  lflag : ℕ
  ispeed : ℕ
  ospeed : ℕ
  cc : List ℕ
deriving DecidableEq, Repr

/-- Line 41-42, `new = old[:]; new[3] &= ~(termios.ICANON | termios.ECHO)`:
clear the canonical-input and echo bits of `lflag`, all else unchanged
(`Nat.ldiff` is `&~` on unbounded nonnegative ints). -/
def newMode (old : Termios) : Termios :=
  { old with lflag := Nat.ldiff old.lflag (ICANON ||| ECHO) }

/-- The device operations the probe performs after a successful open. -/
inductive TtyAction where
  | tcset (t : Termios)
  | close
deriving DecidableEq

/-- Device-visible action sequence of `query_bg_from_terminal` after the
open succeeds: set the raw-like mode, run the exchange body (which touches
no mode bits and may raise), then — in the `finally` block, on success and
on error alike — restore the captured mode and close. -/
def probeActions (old : Termios) (_body : Except Unit (List ℕ)) : List TtyAction :=
  [.tcset (newMode old), .tcset old, .close]

/-- Effect of one action on the device's mode settings. -/
def applyAction (mode : Termios) : TtyAction → Termios
  | .tcset t => t
  | .close => mode

/-- Mode settings after a sequence of actions. -/
def finalMode (mode : Termios) (acts : List TtyAction) : Termios :=
  acts.foldl applyAction mode

/-! ## Terminal probe: polling loop (lines 46–53) -/

/-- Whether `pat` occurs as a contiguous subsequence. -/
def containsSeq (pat : List ℕ) : List ℕ → Bool
  | [] => pat.isPrefixOf []
  | b :: rest => pat.isPrefixOf (b :: rest) || containsSeq pat rest

/-- Line 52: `b"\a" in buf or b"\033\\" in buf`. -/
def hasTerminator (buf : List ℕ) : Bool :=
  buf.contains 7 || containsSeq [27, 92] buf

/-- The polling loop, one constructor per iteration of
`for _ in range(100)`. `chunks i = none` models `select` reporting the
device not readable within its 0.02 s slice (the `continue` branch);
`chunks i = some xs` models readability with `os.read` returning `xs`.
Returns the buffer and the number of loop iterations executed. -/
def probeLoopAux (chunks : ℕ → Option (List ℕ)) : ℕ → ℕ → List ℕ → List ℕ × ℕ
  | i, 0, buf => (buf, i)
  | i, fuel + 1, buf =>
    match chunks i with
    | none => probeLoopAux chunks (i + 1) fuel buf
    | some xs =>
      if hasTerminator (buf ++ xs) then (buf ++ xs, i + 1)
      else probeLoopAux chunks (i + 1) fuel (buf ++ xs)

/-- The loop entered with `buf = b""` and an iteration budget of 100. -/
def probeLoop (chunks : ℕ → Option (List ℕ)) : List ℕ × ℕ :=
  probeLoopAux chunks 0 100 []

/-- The bytes delivered by the first `n` iterations (nothing for a
not-readable iteration). -/
def collected (chunks : ℕ → Option (List ℕ)) (n : ℕ) : List ℕ :=
  ((List.range n).map (fun i => (chunks i).getD [])).flatten

/-! ## Terminal probe: reply extraction (lines 57–58) -/

/-- Byte-level `\s` of the `re` module. -/
def isSpaceByte (b : ℕ) : Bool :=
  b = 9 || b = 10 || b = 11 || b = 12 || b = 13 || b = 32

/-- One anchored attempt of the regex `\]\s*11;([^\a\x1b]*)`: `]`, greedy
whitespace, `11;`, then the longest run free of BEL and ESC. -/
def matchOSCAt (s : List ℕ) : Option (List ℕ) :=
  match s with
  | 93 :: rest =>
    match rest.dropWhile isSpaceByte with
    | 49 :: 49 :: 59 :: rest3 =>
      some (rest3.takeWhile fun b => !(b = 7 || b = 27))
    | _ => none
  | _ => none

/-- Python `re.search`: the leftmost position where the pattern matches. -/
def reSearchOSC : List ℕ → Option (List ℕ)
  | [] => none
  | b :: rest =>
    match matchOSCAt (b :: rest) with
    | some payload => some payload
    | none => reSearchOSC rest

/-- Python `.decode("ascii", "ignore")`: keep bytes below 128. -/
def decodeAsciiIgnore (bs : List ℕ) : List Char :=
  (bs.filter (fun b => b < 128)).map Char.ofNat

/-- Line 57–58: `m.group(1).decode(...) if m else None`. -/
def queryReply (buf : List ℕ) : Option (List Char) :=
  (reSearchOSC buf).map decodeAsciiIgnore

end Lumos

namespace Lumos

/-! # Theorems -/

/-! ## Sanity evaluations of `parse_rgb` -/

example : parse_rgb (chars "#1a2b3c") = .ok (some (26, 43, 60)) := rfl
example : parse_rgb (chars "#1a2b3caa") = .ok (some (26, 43, 60)) := rfl
example : parse_rgb (chars "rgb(12, 34, 56)") = .ok (some (12, 34, 56)) := rfl
example : parse_rgb (chars "rgb:zz/00/00") = .error .valueError := rfl
example : parse_rgb (chars "rgb:11/22") = .error .valueError := rfl
example : parse_rgb (chars "hello") = .ok none := rfl
example : parse_rgb (chars "rgb:11/22/33") = .ok (some (17, 34, 51)) := rfl
example : pyInt16 (chars "0xff") = .ok 255 := rfl
example : pyInt16 (chars "0x_ff") = .ok 255 := rfl
example : pyInt16 (chars " -ff ") = .ok (-255) := rfl
example : pyInt16 (chars "f_f") = .ok 255 := rfl
example : pyInt16 (chars "") = .error .valueError := rfl
example : pyInt16 (chars "_f") = .error .valueError := rfl
example : pyInt16 (chars "f_") = .error .valueError := rfl

/-! ## Evaluation lemmas for `pyRound` -/

theorem pyRound_of_lt_add_half (q : ℚ) (n : ℤ) (h1 : (n : ℚ) ≤ q)
    (h2 : q < n + 1/2) : pyRound q = n := by
  have hf : ⌊q⌋ = n := Int.floor_eq_iff.mpr ⟨h1, by linarith⟩
  unfold pyRound
  rw [hf, if_pos (by linarith)]

theorem pyRound_of_half_lt (q : ℚ) (n : ℤ) (h1 : (n : ℚ) + 1/2 < q)
    (h2 : q < n + 1) : pyRound q = n + 1 := by
  have hf : ⌊q⌋ = n := Int.floor_eq_iff.mpr ⟨by linarith, h2⟩
  unfold pyRound
  rw [hf, if_neg (not_lt.mpr (by linarith)), if_pos (by linarith)]

/-! ## Character-class facts -/

theorem hex_not_space {c : Char} (hc : isHexDigit c = true) :
    isPySpace c = false := by
  simp only [isHexDigit, Bool.or_eq_true, Bool.and_eq_true, decide_eq_true_eq] at hc
  simp only [isPySpace, Bool.or_eq_false_iff, decide_eq_false_iff_not]
  omega

theorem hex_toNat_out {c : Char} (hc : isHexDigit c = true) (m : ℕ)
    (hm : m < 48 ∨ (57 < m ∧ m < 65) ∨ (70 < m ∧ m < 97) ∨ 102 < m) :
    c.toNat ≠ m := by
  simp only [isHexDigit, Bool.or_eq_true, Bool.and_eq_true, decide_eq_true_eq] at hc
  omega

theorem hex_ne {c : Char} (hc : isHexDigit c = true) (d : Char)
    (hd : d.toNat < 48 ∨ (57 < d.toNat ∧ d.toNat < 65) ∨
      (70 < d.toNat ∧ d.toNat < 97) ∨ 102 < d.toNat) : c ≠ d := by
  intro he
  exact hex_toNat_out hc d.toNat hd (congrArg Char.toNat he)

/-! ## `stripChars` on space-free strings -/

theorem dropWhile_eq_self_of_none {p : Char → Bool} {s : List Char}
    (hs : ∀ c ∈ s, p c = false) : s.dropWhile p = s := by
  cases s with
  | nil => rfl
  | cons c rest => simp [List.dropWhile, hs c (List.mem_cons_self c rest)]

theorem stripChars_eq_self {p : Char → Bool} {s : List Char}
    (hs : ∀ c ∈ s, p c = false) : stripChars p s = s := by
  unfold stripChars
  rw [dropWhile_eq_self_of_none hs,
    dropWhile_eq_self_of_none (fun c hc => hs c (List.mem_reverse.mp hc)),
    List.reverse_reverse]

/-! ## `splitOnChar` -/

theorem splitOnChar_cons (sep c : Char) (rest : List Char) :
    splitOnChar sep (c :: rest) =
      match splitOnChar sep rest with
      | [] => [[]]
      | grp :: gs => if c = sep then [] :: grp :: gs else (c :: grp) :: gs := rfl

theorem splitOnChar_ne_nil (sep : Char) (s : List Char) :
    splitOnChar sep s ≠ [] := by
  cases s with
  | nil => simp [splitOnChar]
  | cons c rest =>
    unfold splitOnChar
    rcases hr : splitOnChar sep rest with _ | ⟨g, gs⟩
    · simp
    · by_cases hc : c = sep <;> simp [hc]

theorem splitOnChar_no_sep {sep : Char} {s : List Char}
    (hs : ∀ c ∈ s, c ≠ sep) : splitOnChar sep s = [s] := by
  induction s with
  | nil => rfl
  | cons c rest ih =>
    unfold splitOnChar
    rw [ih (fun d hd => hs d (List.mem_cons_of_mem c hd))]
    simp [hs c (List.mem_cons_self c rest)]

theorem splitOnChar_append {sep : Char} {r : List Char}
    (hr : ∀ c ∈ r, c ≠ sep) (t : List Char) :
    splitOnChar sep (r ++ sep :: t) = r :: splitOnChar sep t := by
  induction r with
  | nil =>
    rw [List.nil_append, splitOnChar_cons]
    rcases ht : splitOnChar sep t with _ | ⟨g, gs⟩
    · exact absurd ht (splitOnChar_ne_nil sep t)
    · simp
  | cons c rest ih =>
    have hrest := ih (fun d hd => hr d (List.mem_cons_of_mem c hd))
    rw [List.cons_append, splitOnChar_cons, hrest]
    simp [hr c (List.mem_cons_self c rest)]

/-! ## `pyInt16` and `h` on hex tokens -/

theorem pyHexBodyAux_hex {s : List Char} (hs : ∀ c ∈ s, isHexDigit c = true)
    (acc : ℕ) :
    pyHexBodyAux acc s = some (s.foldl (fun a c => 16 * a + hexDigitVal c) acc) := by
  induction s generalizing acc with
  | nil => rfl
  | cons c rest ih =>
    have hc := hs c (List.mem_cons_self c rest)
    unfold pyHexBodyAux
    rw [if_neg (hex_ne hc '_' (by decide)), if_pos hc]
    exact ih (fun d hd => hs d (List.mem_cons_of_mem c hd)) _

theorem pyInt16Digits_hex {c : Char} {rest : List Char}
    (hrest : ∀ d ∈ rest, isHexDigit d = true) :
    pyInt16Digits (c :: rest) = pyHexBody (c :: rest) := by
  rcases rest with _ | ⟨c1, rest2⟩
  · rfl
  · have h1 := hrest c1 (List.mem_cons_self c1 rest2)
    have hcon : ¬(c = '0' ∧ (c1 = 'x' ∨ c1 = 'X')) := by
      rintro ⟨-, rfl | rfl⟩ <;> exact absurd h1 (by decide)
    simp only [pyInt16Digits, if_neg hcon]

theorem pyInt16_hex {s : List Char} (hs : HexToken s) :
    pyInt16 s = .ok (hexVal s) := by
  obtain ⟨hne, hhex⟩ := hs
  rcases s with _ | ⟨c, rest⟩
  · exact absurd rfl hne
  have hc := hhex c (List.mem_cons_self c rest)
  have hrest : ∀ d ∈ rest, isHexDigit d = true :=
    fun d hd => hhex d (List.mem_cons_of_mem c hd)
  unfold pyInt16
  rw [stripChars_eq_self (fun d hd => hex_not_space (hhex d hd))]
  simp only
  rw [if_neg (hex_ne hc '+' (by decide)), if_neg (hex_ne hc '-' (by decide))]
  rw [pyInt16Digits_hex hrest]
  rw [show pyHexBody (c :: rest) =
      if isHexDigit c = true then pyHexBodyAux (hexDigitVal c) rest else none
    from rfl]
  rw [if_pos hc, pyHexBodyAux_hex hrest]
  simp [hexVal]

/-! ## Reducing `parse_rgb` on the `rgb:` / `rgba:` grammars -/

theorem parse_rgb_rgbColon (payload : List Char)
    (hp : ∀ c ∈ payload, isPySpace c = false) :
    parse_rgb ('r' :: 'g' :: 'b' :: ':' :: payload) =
      match splitOnChar '/' payload with
      | r :: g :: b :: _ => do
          let x ← h r
          let y ← h g
          let z ← h b
          pure (some (x, y, z))
      | _ => .error .valueError := by
  have hstrip : stripChars isPySpace ('r' :: 'g' :: 'b' :: ':' :: payload) =
      'r' :: 'g' :: 'b' :: ':' :: payload := by
    apply stripChars_eq_self
    intro c hc
    simp only [List.mem_cons] at hc
    rcases hc with rfl | rfl | rfl | rfl | hc
    · rfl
    · rfl
    · rfl
    · rfl
    · exact hp c hc
  have haf : afterFirst ':' ('r' :: 'g' :: 'b' :: ':' :: payload) = payload := by
    simp [afterFirst, List.dropWhile]
  simp only [parse_rgb]
  rw [hstrip, haf]
  rw [if_pos (by simp [startsWith, List.isPrefixOf])]

theorem parse_rgb_rgbaColon (payload : List Char)
    (hp : ∀ c ∈ payload, isPySpace c = false) :
    parse_rgb ('r' :: 'g' :: 'b' :: 'a' :: ':' :: payload) =
      match splitOnChar '/' payload with
      | r :: g :: b :: _ => do
          let x ← h r
          let y ← h g
          let z ← h b
          pure (some (x, y, z))
      | _ => .error .valueError := by
  have hstrip : stripChars isPySpace ('r' :: 'g' :: 'b' :: 'a' :: ':' :: payload) =
      'r' :: 'g' :: 'b' :: 'a' :: ':' :: payload := by
    apply stripChars_eq_self
    intro c hc
    simp only [List.mem_cons] at hc
    rcases hc with rfl | rfl | rfl | rfl | rfl | hc
    · rfl
    · rfl
    · rfl
    · rfl
    · rfl
    · exact hp c hc
  have haf : afterFirst ':' ('r' :: 'g' :: 'b' :: 'a' :: ':' :: payload) = payload := by
    simp [afterFirst, List.dropWhile]
  simp only [parse_rgb]
  rw [hstrip, haf]
  rw [if_pos (by simp [startsWith, List.isPrefixOf])]

/-- A hex token contains no `/` and no whitespace, so a `/`-joined list of
hex tokens splits back into its tokens. -/
theorem hexToken_no_slash {s : List Char} (hs : HexToken s) :
    ∀ c ∈ s, c ≠ '/' :=
  fun c hc => hex_ne (hs.2 c hc) '/' (by decide)

theorem hexToken_no_space {s : List Char} (hs : HexToken s) :
    ∀ c ∈ s, isPySpace c = false :=
  fun c hc => hex_not_space (hs.2 c hc)

theorem h_hex2 {s : List Char} (hs : HexToken s) (hlen : s.length = 2) :
    h s = .ok (hexVal s) := by
  unfold h
  rw [pyInt16_hex hs]
  simp [hlen]

theorem h_hex_other {s : List Char} (hs : HexToken s) (hlen : s.length ≠ 2) :
    h s = .ok (pyRound ((hexVal s : ℚ) * 255 / 65535)) := by
  unfold h
  rw [pyInt16_hex hs]
  simp [hlen]

theorem hexToken_pair {a b : Char} (ha : isHexDigit a = true)
    (hb : isHexDigit b = true) : HexToken [a, b] := by
  refine ⟨by simp, ?_⟩
  intro c hc
  rcases List.mem_cons.mp hc with rfl | hc2
  · exact ha
  rcases List.mem_cons.mp hc2 with rfl | hc3
  · exact hb
  · exact absurd hc3 (List.not_mem_nil c)

theorem hexDigitVal_lt {c : Char} (hc : isHexDigit c = true) :
    hexDigitVal c < 16 := by
  simp only [isHexDigit, Bool.or_eq_true, Bool.and_eq_true, decide_eq_true_eq] at hc
  unfold hexDigitVal
  split
  · omega
  · split <;> omega

theorem hexVal_foldl_lt {s : List Char} (hs : ∀ c ∈ s, isHexDigit c = true) :
    ∀ acc : ℕ, s.foldl (fun a c => 16 * a + hexDigitVal c) acc <
      (acc + 1) * 16 ^ s.length := by
  induction s with
  | nil => intro acc; simp
  | cons c rest ih =>
    intro acc
    have hc := hexDigitVal_lt (hs c (List.mem_cons_self c rest))
    have hrest := ih (fun d hd => hs d (List.mem_cons_of_mem c hd))
      (16 * acc + hexDigitVal c)
    refine lt_of_lt_of_le hrest ?_
    have : 16 * acc + hexDigitVal c + 1 ≤ (acc + 1) * 16 := by omega
    calc (16 * acc + hexDigitVal c + 1) * 16 ^ rest.length
        ≤ (acc + 1) * 16 * 16 ^ rest.length := Nat.mul_le_mul_right _ this
      _ = (acc + 1) * 16 ^ (c :: rest).length := by
          rw [List.length_cons, pow_succ]
          ring

theorem hexVal_lt {s : List Char} (hs : ∀ c ∈ s, isHexDigit c = true) :
    hexVal s < 16 ^ s.length := by
  simpa [hexVal] using hexVal_foldl_lt hs 0

/-- Reduction of `parse_rgb` on `rgb:` with exactly three hex channel tokens. -/
theorem parse_rgb_three_hex (r g b : List Char)
    (hr : HexToken r) (hg : HexToken g) (hb : HexToken b) :
    parse_rgb ('r' :: 'g' :: 'b' :: ':' :: (r ++ '/' :: (g ++ '/' :: b))) =
      (do
        let x ← h r
        let y ← h g
        let z ← h b
        pure (some (x, y, z))) := by
  have hp : ∀ c ∈ r ++ '/' :: (g ++ '/' :: b), isPySpace c = false := by
    intro c hc
    simp only [List.mem_append, List.mem_cons] at hc
    rcases hc with hc | rfl | hc | rfl | hc
    · exact hexToken_no_space hr c hc
    · rfl
    · exact hexToken_no_space hg c hc
    · rfl
    · exact hexToken_no_space hb c hc
  rw [parse_rgb_rgbColon _ hp,
    splitOnChar_append (hexToken_no_slash hr),
    splitOnChar_append (hexToken_no_slash hg),
    splitOnChar_no_sep (hexToken_no_slash hb)]

/-- For any whitespace-free payload, the `rgba:` spelling parses exactly as
the `rgb:` spelling does. -/
theorem parse_rgba_eq_rgb (payload : List Char)
    (hp : ∀ c ∈ payload, isPySpace c = false) :
    parse_rgb ('r' :: 'g' :: 'b' :: 'a' :: ':' :: payload) =
      parse_rgb ('r' :: 'g' :: 'b' :: ':' :: payload) := by
  rw [parse_rgb_rgbColon _ hp, parse_rgb_rgbaColon _ hp]

/-- Reduction of `parse_rgb` on `#` followed by 6 or 8 non-whitespace characters. -/
theorem parse_rgb_hash (s : List Char) (hsp : ∀ c ∈ s, isPySpace c = false)
    (hlen : s.length = 6 ∨ s.length = 8) :
    parse_rgb ('#' :: s) = (do
      let r ← pyInt16 (s.take 2)
      let g ← pyInt16 ((s.drop 2).take 2)
      let b ← pyInt16 ((s.drop 4).take 2)
      pure (some (r, g, b))) := by
  have hstrip : stripChars isPySpace ('#' :: s) = '#' :: s := by
    apply stripChars_eq_self
    intro c hc
    rcases List.mem_cons.mp hc with rfl | hc2
    · rfl
    · exact hsp c hc2
  simp only [parse_rgb]
  rw [hstrip]
  rw [if_neg (by
    simp only [startsWith, Bool.or_eq_true]
    rintro (hpre | hpre) <;> simp [List.isPrefixOf] at hpre)]
  rw [if_pos (by
    simp [startsWith, List.isPrefixOf, List.length_cons]
    omega)]
  rfl

/-! ## Concrete channel evaluations -/

theorem h_ffff : h (chars "ffff") = .ok 255 := by
  rw [h_hex_other (by decide) (by decide),
    show hexVal (chars "ffff") = 65535 from rfl,
    pyRound_of_lt_add_half _ 255 (by norm_num) (by norm_num)]

theorem h_0000 : h (chars "0000") = .ok 0 := by
  rw [h_hex_other (by decide) (by decide),
    show hexVal (chars "0000") = 0 from rfl,
    pyRound_of_lt_add_half _ 0 (by norm_num) (by norm_num)]

theorem h_8080 : h (chars "8080") = .ok 128 := by
  rw [h_hex_other (by decide) (by decide),
    show hexVal (chars "8080") = 32896 from rfl,
    pyRound_of_lt_add_half _ 128 (by norm_num) (by norm_num)]

theorem h_1111 : h (chars "1111") = .ok 17 := by
  rw [h_hex_other (by decide) (by decide),
    show hexVal (chars "1111") = 4369 from rfl,
    pyRound_of_lt_add_half _ 17 (by norm_num) (by norm_num)]

theorem h_2222 : h (chars "2222") = .ok 34 := by
  rw [h_hex_other (by decide) (by decide),
    show hexVal (chars "2222") = 8738 from rfl,
    pyRound_of_lt_add_half _ 34 (by norm_num) (by norm_num)]

theorem h_3333 : h (chars "3333") = .ok 51 := by
  rw [h_hex_other (by decide) (by decide),
    show hexVal (chars "3333") = 13107 from rfl,
    pyRound_of_lt_add_half _ 51 (by norm_num) (by norm_num)]

theorem h_f : h (chars "f") = .ok 0 := by
  rw [h_hex_other (by decide) (by decide),
    show hexVal (chars "f") = 15 from rfl,
    pyRound_of_lt_add_half _ 0 (by norm_num) (by norm_num)]

theorem h_fff : h (chars "fff") = .ok 16 := by
  rw [h_hex_other (by decide) (by decide),
    show hexVal (chars "fff") = 4095 from rfl,
    pyRound_of_half_lt _ 15 (by norm_num) (by norm_num)]
  rfl

/-! ## Claim theorems -/

/-- Claim C1 (code_bug evidence). A malformed hex digit inside a matched
`rgb:` payload, and a payload with fewer than three `/`-separated tokens,
do NOT yield `None`: `parse_rgb` raises `ValueError` (`int("zz", 16)`
resp. the `r, g, b = parts[:3]` unpacking), contradicting the claim and the
function's own docstring ("or None if parsing fails"). -/
theorem claim_C1 :
    parse_rgb (chars "rgb:zz/00/00") = .error .valueError ∧
    parse_rgb (chars "rgb:11/22") = .error .valueError ∧
    parse_rgb (chars "rgb:ff/gg/00") = .error .valueError ∧
    parse_rgb (chars "rgb:") = .error .valueError :=
  ⟨rfl, rfl, rfl, rfl⟩

/-- Claim C2 (code_bug evidence). A terminal reply whose payload is
`rgb:zz/00/00` makes the module body raise an uncaught `ValueError`: no
`dark`/`light`/`unknown` outcome is produced, and CPython's exit status for
an uncaught exception is 1, which is neither 0 nor 2. -/
theorem claim_C2 :
    pipelineRGB (some (chars "rgb:zz/00/00")) = .error .valueError ∧
    (∀ out code, ¬ mainOutcome (some (chars "rgb:zz/00/00")) out code) ∧
    pyUncaughtExitCode .valueError ≠ 0 ∧ pyUncaughtExitCode .valueError ≠ 2 := by
  refine ⟨rfl, ?_, by decide, by decide⟩
  intro out code hc
  exact hc

/-- Claim C4: in the `rgb:` grammar a 2-hex-digit channel token is used
verbatim (an integer in 0–255), a 4-hex-digit token becomes
`round(n / 65535 * 255)`; the `rgba:` spelling parses identically, and in
particular `rgb:ffff/0000/8080` parses to `(255, 0, 128)`. -/
theorem claim_C4 :
    (∀ r g b : List Char, HexToken r → HexToken g → HexToken b →
      r.length = 2 → g.length = 2 → b.length = 2 →
      parse_rgb ('r' :: 'g' :: 'b' :: ':' :: (r ++ '/' :: (g ++ '/' :: b))) =
        .ok (some ((hexVal r : ℤ), (hexVal g : ℤ), (hexVal b : ℤ))) ∧
      hexVal r ≤ 255 ∧ hexVal g ≤ 255 ∧ hexVal b ≤ 255) ∧
    (∀ r g b : List Char, HexToken r → HexToken g → HexToken b →
      r.length = 4 → g.length = 4 → b.length = 4 →
      parse_rgb ('r' :: 'g' :: 'b' :: ':' :: (r ++ '/' :: (g ++ '/' :: b))) =
        .ok (some (pyRound ((hexVal r : ℚ) / 65535 * 255),
          pyRound ((hexVal g : ℚ) / 65535 * 255),
          pyRound ((hexVal b : ℚ) / 65535 * 255)))) ∧
    (∀ payload : List Char, (∀ c ∈ payload, isPySpace c = false) →
      parse_rgb ('r' :: 'g' :: 'b' :: 'a' :: ':' :: payload) =
        parse_rgb ('r' :: 'g' :: 'b' :: ':' :: payload)) ∧
    parse_rgb (chars "rgb:ffff/0000/8080") = .ok (some (255, 0, 128)) := by
  have hq : ∀ q : ℚ, q * 255 / 65535 = q / 65535 * 255 := fun q => by ring
  refine ⟨?_, ?_, parse_rgba_eq_rgb, ?_⟩
  · intro r g b hr hg hb hlr hlg hlb
    have br := hexVal_lt hr.2
    have bg := hexVal_lt hg.2
    have bb := hexVal_lt hb.2
    rw [hlr] at br
    rw [hlg] at bg
    rw [hlb] at bb
    norm_num at br bg bb
    refine ⟨?_, by omega, by omega, by omega⟩
    rw [parse_rgb_three_hex r g b hr hg hb,
      h_hex2 hr hlr, h_hex2 hg hlg, h_hex2 hb hlb]
    rfl
  · intro r g b hr hg hb hlr hlg hlb
    rw [parse_rgb_three_hex r g b hr hg hb,
      h_hex_other hr (by omega), h_hex_other hg (by omega),
      h_hex_other hb (by omega), hq, hq, hq]
    rfl
  · rw [show chars "rgb:ffff/0000/8080" = 'r' :: 'g' :: 'b' :: ':' ::
        (chars "ffff" ++ '/' :: (chars "0000" ++ '/' :: chars "8080")) from rfl,
      parse_rgb_three_hex _ _ _ (by decide) (by decide) (by decide),
      h_ffff, h_0000, h_8080]
    rfl

/-- Claim C5, amended: a 1- or 3-hex-digit channel token is NOT rescaled
from its native range `2^(4·len) − 1`; like every non-2-digit token it is
treated as 16-bit and scaled by `round(n / 65535 * 255)` (so `f` gives 0,
not 255, and `fff` gives 16, not 255). -/
theorem claim_C5 :
    (∀ s : List Char, HexToken s → s.length = 1 ∨ s.length = 3 →
      h s = .ok (pyRound ((hexVal s : ℚ) / 65535 * 255))) ∧
    h (chars "f") = .ok 0 ∧ h (chars "fff") = .ok 16 := by
  refine ⟨?_, h_f, h_fff⟩
  intro s hs hlen
  rw [h_hex_other hs (by omega),
    show (hexVal s : ℚ) * 255 / 65535 = (hexVal s : ℚ) / 65535 * 255 from by ring]

/-- Claim C5, counterexample: the claim demands that `rgb:f/f/f` rescale
each 1-digit token `f` (value 15) from its native range 15, yielding
`round(15 / 15 * 255) = 255`; the code returns 0 for each channel. -/
theorem claim_C5_counterexample :
    parse_rgb (chars "rgb:f/f/f") = .ok (some (0, 0, 0)) ∧
    specNativeScale (chars "f") = 255 ∧ (0 : ℤ) ≠ 255 := by
  refine ⟨?_, ?_, by decide⟩
  · rw [show chars "rgb:f/f/f" = 'r' :: 'g' :: 'b' :: ':' ::
        (chars "f" ++ '/' :: (chars "f" ++ '/' :: chars "f")) from rfl,
      parse_rgb_three_hex _ _ _ (by decide) (by decide) (by decide), h_f]
    rfl
  · unfold specNativeScale
    rw [show (hexVal (chars "f") : ℚ) / (2 ^ (4 * (chars "f").length) - 1) * 255
          = 255 from by
        norm_num [show hexVal (chars "f") = 15 from rfl,
          show (chars "f").length = 1 from rfl],
      pyRound_of_lt_add_half _ 255 (by norm_num) (by norm_num)]

/-- Claim C7: `#RRGGBB` with valid hex digits parses to the three hex byte
values, and a trailing alpha pair in `#RRGGBBAA` is ignored — the parse is
identical to the one without it; `#1a2b3caa` and `#1a2b3c` both give
`(26, 43, 60)`. -/
theorem claim_C7 :
    (∀ d1 d2 d3 d4 d5 d6 : Char,
      isHexDigit d1 = true → isHexDigit d2 = true → isHexDigit d3 = true →
      isHexDigit d4 = true → isHexDigit d5 = true → isHexDigit d6 = true →
      parse_rgb ('#' :: [d1, d2, d3, d4, d5, d6]) =
        .ok (some ((hexVal [d1, d2] : ℤ), (hexVal [d3, d4] : ℤ),
          (hexVal [d5, d6] : ℤ)))) ∧
    (∀ d1 d2 d3 d4 d5 d6 a1 a2 : Char,
      isHexDigit d1 = true → isHexDigit d2 = true → isHexDigit d3 = true →
      isHexDigit d4 = true → isHexDigit d5 = true → isHexDigit d6 = true →
      isHexDigit a1 = true → isHexDigit a2 = true →
      parse_rgb ('#' :: [d1, d2, d3, d4, d5, d6, a1, a2]) =
        parse_rgb ('#' :: [d1, d2, d3, d4, d5, d6])) ∧
    parse_rgb (chars "#1a2b3caa") = .ok (some (26, 43, 60)) ∧
    parse_rgb (chars "#1a2b3c") = .ok (some (26, 43, 60)) := by
  refine ⟨?_, ?_, rfl, rfl⟩
  · intro d1 d2 d3 d4 d5 d6 h1 h2 h3 h4 h5 h6
    have hsp : ∀ c ∈ [d1, d2, d3, d4, d5, d6], isPySpace c = false := by
      intro c hc
      simp only [List.mem_cons] at hc
      rcases hc with rfl | rfl | rfl | rfl | rfl | rfl | hc
      · exact hex_not_space h1
      · exact hex_not_space h2
      · exact hex_not_space h3
      · exact hex_not_space h4
      · exact hex_not_space h5
      · exact hex_not_space h6
      · exact absurd hc (List.not_mem_nil c)
    rw [parse_rgb_hash _ hsp (by simp)]
    show (do
      let r ← pyInt16 [d1, d2]
      let g ← pyInt16 [d3, d4]
      let b ← pyInt16 [d5, d6]
      pure (some (r, g, b))) = _
    rw [pyInt16_hex (hexToken_pair h1 h2), pyInt16_hex (hexToken_pair h3 h4),
      pyInt16_hex (hexToken_pair h5 h6)]
    rfl
  · intro d1 d2 d3 d4 d5 d6 a1 a2 h1 h2 h3 h4 h5 h6 ha1 ha2
    have hsp8 : ∀ c ∈ [d1, d2, d3, d4, d5, d6, a1, a2], isPySpace c = false := by
      intro c hc
      simp only [List.mem_cons] at hc
      rcases hc with rfl | rfl | rfl | rfl | rfl | rfl | rfl | rfl | hc
      · exact hex_not_space h1
      · exact hex_not_space h2
      · exact hex_not_space h3
      · exact hex_not_space h4
      · exact hex_not_space h5
      · exact hex_not_space h6
      · exact hex_not_space ha1
      · exact hex_not_space ha2
      · exact absurd hc (List.not_mem_nil c)
    have hsp6 : ∀ c ∈ [d1, d2, d3, d4, d5, d6], isPySpace c = false := by
      intro c hc
      apply hsp8
      simp only [List.mem_cons] at hc ⊢
      tauto
    rw [parse_rgb_hash _ hsp8 (by simp), parse_rgb_hash _ hsp6 (by simp)]
    rfl

theorem payload3_no_space {r g b : List Char} (hr : HexToken r)
    (hg : HexToken g) (hb : HexToken b) :
    ∀ c ∈ r ++ '/' :: (g ++ '/' :: b), isPySpace c = false := by
  intro c hc
  simp only [List.mem_append, List.mem_cons] at hc
  rcases hc with hc | rfl | hc | rfl | hc
  · exact hexToken_no_space hr c hc
  · rfl
  · exact hexToken_no_space hg c hc
  · rfl
  · exact hexToken_no_space hb c hc

theorem payload4_no_space {r g b e : List Char} (hr : HexToken r)
    (hg : HexToken g) (hb : HexToken b)
    (he : ∀ c ∈ e, isPySpace c = false) :
    ∀ c ∈ r ++ '/' :: (g ++ '/' :: (b ++ '/' :: e)), isPySpace c = false := by
  intro c hc
  simp only [List.mem_append, List.mem_cons] at hc
  rcases hc with hc | rfl | hc | rfl | hc | rfl | hc
  · exact hexToken_no_space hr c hc
  · rfl
  · exact hexToken_no_space hg c hc
  · rfl
  · exact hexToken_no_space hb c hc
  · rfl
  · exact he c hc

/-- Claim C9: an `rgb:` or `rgba:` payload with more than three
`/`-separated components parses using only the first three, the rest
silently ignored; `rgb:1111/2222/3333/4444` and
`rgba:1111/2222/3333/4444` both give `(17, 34, 51)`, identical to the
same spec without the fourth component. -/
theorem claim_C9 :
    (∀ r g b e : List Char,
      HexToken r → HexToken g → HexToken b →
      (∀ c ∈ e, isPySpace c = false) →
      parse_rgb ('r' :: 'g' :: 'b' :: ':' ::
          (r ++ '/' :: (g ++ '/' :: (b ++ '/' :: e)))) =
        parse_rgb ('r' :: 'g' :: 'b' :: ':' ::
          (r ++ '/' :: (g ++ '/' :: b)))) ∧
    (∀ r g b e : List Char,
      HexToken r → HexToken g → HexToken b →
      (∀ c ∈ e, isPySpace c = false) →
      parse_rgb ('r' :: 'g' :: 'b' :: 'a' :: ':' ::
          (r ++ '/' :: (g ++ '/' :: (b ++ '/' :: e)))) =
        parse_rgb ('r' :: 'g' :: 'b' :: 'a' :: ':' ::
          (r ++ '/' :: (g ++ '/' :: b)))) ∧
    parse_rgb (chars "rgb:1111/2222/3333/4444") = .ok (some (17, 34, 51)) ∧
    parse_rgb (chars "rgb:1111/2222/3333") = .ok (some (17, 34, 51)) ∧
    parse_rgb (chars "rgba:1111/2222/3333/4444") = .ok (some (17, 34, 51)) ∧
    parse_rgb (chars "rgba:1111/2222/3333") = .ok (some (17, 34, 51)) := by
  have hrgb : ∀ r g b e : List Char,
      HexToken r → HexToken g → HexToken b →
      (∀ c ∈ e, isPySpace c = false) →
      parse_rgb ('r' :: 'g' :: 'b' :: ':' ::
          (r ++ '/' :: (g ++ '/' :: (b ++ '/' :: e)))) =
        parse_rgb ('r' :: 'g' :: 'b' :: ':' ::
          (r ++ '/' :: (g ++ '/' :: b))) := by
    intro r g b e hr hg hb he
    rw [parse_rgb_rgbColon _ (payload4_no_space hr hg hb he),
      parse_rgb_rgbColon _ (payload3_no_space hr hg hb),
      splitOnChar_append (hexToken_no_slash hr),
      splitOnChar_append (hexToken_no_slash hr),
      splitOnChar_append (hexToken_no_slash hg),
      splitOnChar_append (hexToken_no_slash hg),
      splitOnChar_append (hexToken_no_slash hb),
      splitOnChar_no_sep (hexToken_no_slash hb)]
  have heval4 : parse_rgb ('r' :: 'g' :: 'b' :: ':' ::
      (chars "1111" ++ '/' :: (chars "2222" ++ '/' ::
        (chars "3333" ++ '/' :: chars "4444")))) = .ok (some (17, 34, 51)) := by
    rw [parse_rgb_rgbColon _ (by decide),
      splitOnChar_append (by decide), splitOnChar_append (by decide),
      splitOnChar_append (by decide), splitOnChar_no_sep (by decide)]
    show (do
      let x ← h (chars "1111")
      let y ← h (chars "2222")
      let z ← h (chars "3333")
      pure (some (x, y, z))) = _
    rw [h_1111, h_2222, h_3333]
    rfl
  have heval3 : parse_rgb ('r' :: 'g' :: 'b' :: ':' ::
      (chars "1111" ++ '/' :: (chars "2222" ++ '/' :: chars "3333"))) =
      .ok (some (17, 34, 51)) := by
    rw [parse_rgb_three_hex _ _ _ (by decide) (by decide) (by decide),
      h_1111, h_2222, h_3333]
    rfl
  refine ⟨hrgb, ?_, ?_, ?_, ?_, ?_⟩
  · intro r g b e hr hg hb he
    rw [parse_rgba_eq_rgb _ (payload4_no_space hr hg hb he),
      parse_rgba_eq_rgb _ (payload3_no_space hr hg hb)]
    exact hrgb r g b e hr hg hb he
  · rw [show chars "rgb:1111/2222/3333/4444" = 'r' :: 'g' :: 'b' :: ':' ::
        (chars "1111" ++ '/' :: (chars "2222" ++ '/' ::
          (chars "3333" ++ '/' :: chars "4444"))) from rfl]
    exact heval4
  · rw [show chars "rgb:1111/2222/3333" = 'r' :: 'g' :: 'b' :: ':' ::
        (chars "1111" ++ '/' :: (chars "2222" ++ '/' :: chars "3333")) from rfl]
    exact heval3
  · rw [show chars "rgba:1111/2222/3333/4444" = 'r' :: 'g' :: 'b' :: 'a' :: ':' ::
        (chars "1111" ++ '/' :: (chars "2222" ++ '/' ::
          (chars "3333" ++ '/' :: chars "4444"))) from rfl,
      parse_rgba_eq_rgb _ (by decide)]
    exact heval4
  · rw [show chars "rgba:1111/2222/3333" = 'r' :: 'g' :: 'b' :: 'a' :: ':' ::
        (chars "1111" ++ '/' :: (chars "2222" ++ '/' :: chars "3333")) from rfl,
      parse_rgba_eq_rgb _ (by decide)]
    exact heval3

/-! ## Terminal mode restoration -/

theorem testBit_ten {i : ℕ} (h1 : i ≠ 1) (h3 : i ≠ 3) :
    (10 : ℕ).testBit i = false := by
  rcases i with _ | _ | _ | _ | i <;> simp_all [Nat.testBit_succ]

/-- Claim C3: on every exit path of the probe (the body succeeding with a
full or partial buffer, or raising mid-exchange), the mode saved before the
modification is set back bit-for-bit and the device closed; the mode in
force during the exchange differs from the saved one only in `lflag`,
where exactly the ICANON bit (bit 1) and the ECHO bit (bit 3) are cleared. -/
theorem claim_C3 :
    ∀ (old : Termios) (body : Except Unit (List ℕ)),
      finalMode old (probeActions old body) = old ∧
      probeActions old body = [.tcset (newMode old), .tcset old, .close] ∧
      (newMode old).iflag = old.iflag ∧ (newMode old).oflag = old.oflag ∧
      (newMode old).cflag = old.cflag ∧ (newMode old).ispeed = old.ispeed ∧
      (newMode old).ospeed = old.ospeed ∧ (newMode old).cc = old.cc ∧
      (newMode old).lflag.testBit 1 = false ∧
      (newMode old).lflag.testBit 3 = false ∧
      (∀ i : ℕ, i ≠ 1 → i ≠ 3 →
        (newMode old).lflag.testBit i = old.lflag.testBit i) := by
  intro old body
  have hmask : (ICANON ||| ECHO : ℕ) = 10 := rfl
  refine ⟨rfl, rfl, rfl, rfl, rfl, rfl, rfl, rfl, ?_, ?_, ?_⟩
  · show (Nat.ldiff old.lflag (ICANON ||| ECHO)).testBit 1 = false
    rw [hmask, Nat.testBit_ldiff]
    simp [show (10 : ℕ).testBit 1 = true from rfl]
  · show (Nat.ldiff old.lflag (ICANON ||| ECHO)).testBit 3 = false
    rw [hmask, Nat.testBit_ldiff]
    simp [show (10 : ℕ).testBit 3 = true from rfl]
  · intro i h1 h3
    show (Nat.ldiff old.lflag (ICANON ||| ECHO)).testBit i = old.lflag.testBit i
    rw [hmask, Nat.testBit_ldiff, testBit_ten h1 h3]
    simp

/-! ## Polling loop -/

theorem collected_zero (chunks : ℕ → Option (List ℕ)) :
    collected chunks 0 = [] := rfl

theorem collected_succ (chunks : ℕ → Option (List ℕ)) (n : ℕ) :
    collected chunks (n + 1) = collected chunks n ++ (chunks n).getD [] := by
  simp [collected, List.range_succ]

theorem probeLoopAux_zero (chunks : ℕ → Option (List ℕ)) (i : ℕ)
    (buf : List ℕ) : probeLoopAux chunks i 0 buf = (buf, i) := rfl

theorem probeLoopAux_succ (chunks : ℕ → Option (List ℕ)) (i fuel : ℕ)
    (buf : List ℕ) :
    probeLoopAux chunks i (fuel + 1) buf =
      match chunks i with
      | none => probeLoopAux chunks (i + 1) fuel buf
      | some xs =>
        if hasTerminator (buf ++ xs) then (buf ++ xs, i + 1)
        else probeLoopAux chunks (i + 1) fuel (buf ++ xs) := rfl

theorem probeLoopAux_spec (chunks : ℕ → Option (List ℕ)) :
    ∀ (fuel i : ℕ) (buf : List ℕ),
      buf = collected chunks i →
      (∀ j, j ≤ i → hasTerminator (collected chunks j) = false) →
      i ≤ (probeLoopAux chunks i fuel buf).2 ∧
      (probeLoopAux chunks i fuel buf).2 ≤ i + fuel ∧
      (probeLoopAux chunks i fuel buf).1 =
        collected chunks (probeLoopAux chunks i fuel buf).2 ∧
      (hasTerminator (probeLoopAux chunks i fuel buf).1 = true ∨
        (probeLoopAux chunks i fuel buf).2 = i + fuel) ∧
      (∀ j, j < (probeLoopAux chunks i fuel buf).2 →
        hasTerminator (collected chunks j) = false) := by
  intro fuel
  induction fuel with
  | zero =>
    intro i buf hbuf hpre
    rw [probeLoopAux_zero]
    refine ⟨le_refl i, by omega, hbuf, Or.inr (by omega), ?_⟩
    intro j hj
    exact hpre j (by omega)
  | succ fuel ih =>
    intro i buf hbuf hpre
    rcases hci : chunks i with _ | xs
    · have hbuf2 : buf = collected chunks (i + 1) := by
        rw [collected_succ, hci]
        simpa using hbuf
      have hpre2 : ∀ j, j ≤ i + 1 → hasTerminator (collected chunks j) = false := by
        intro j hj
        rcases Nat.lt_or_ge j (i + 1) with hlt | hge
        · exact hpre j (by omega)
        · have hj1 : j = i + 1 := by omega
          rw [hj1, ← hbuf2, hbuf]
          exact hpre i (le_refl i)
      have hrec := ih (i + 1) buf hbuf2 hpre2
      rw [show probeLoopAux chunks i (fuel + 1) buf =
        probeLoopAux chunks (i + 1) fuel buf from by
          rw [probeLoopAux_succ, hci]]
      exact ⟨by omega, by omega, hrec.2.2.1, by
        rcases hrec.2.2.2.1 with hterm | hend
        · exact Or.inl hterm
        · exact Or.inr (by omega), hrec.2.2.2.2⟩
    · have hbuf2 : buf ++ xs = collected chunks (i + 1) := by
        rw [collected_succ, hci, hbuf]
        rfl
      rcases hterm : hasTerminator (buf ++ xs) with hfalse | htrue
      · have hpre2 : ∀ j, j ≤ i + 1 →
            hasTerminator (collected chunks j) = false := by
          intro j hj
          rcases Nat.lt_or_ge j (i + 1) with hlt | hge
          · exact hpre j (by omega)
          · have hj1 : j = i + 1 := by omega
            rw [hj1, ← hbuf2]
            exact hterm
        have hrec := ih (i + 1) (buf ++ xs) hbuf2 hpre2
        rw [show probeLoopAux chunks i (fuel + 1) buf =
          probeLoopAux chunks (i + 1) fuel (buf ++ xs) from by
            rw [probeLoopAux_succ, hci]
            simp [hterm]]
        exact ⟨by omega, by omega, hrec.2.2.1, by
          rcases hrec.2.2.2.1 with ht | hend
          · exact Or.inl ht
          · exact Or.inr (by omega), hrec.2.2.2.2⟩
      · rw [show probeLoopAux chunks i (fuel + 1) buf = (buf ++ xs, i + 1) from by
          rw [probeLoopAux_succ, hci]
          simp [hterm]]
        refine ⟨by omega, by omega, hbuf2, Or.inl hterm, ?_⟩
        intro j hj
        exact hpre j (by omega)

/-- Claim C8: the polling loop always terminates within its budget of 100
iterations; it stops early exactly when the accumulated buffer first
contains a terminator (BEL `\x07` or the String Terminator `\x1b\`),
and otherwise runs all 100 iterations and returns whatever bytes the
readable iterations delivered (possibly none). -/
theorem claim_C8 :
    ∀ chunks : ℕ → Option (List ℕ),
      (probeLoop chunks).2 ≤ 100 ∧
      (probeLoop chunks).1 = collected chunks (probeLoop chunks).2 ∧
      (hasTerminator (probeLoop chunks).1 = true ∨ (probeLoop chunks).2 = 100) ∧
      (∀ j, j < (probeLoop chunks).2 →
        hasTerminator (collected chunks j) = false) := by
  intro chunks
  have hs := probeLoopAux_spec chunks 100 0 [] rfl (by
    intro j hj
    rw [Nat.le_zero.mp hj]
    rfl)
  rw [show probeLoop chunks = probeLoopAux chunks 0 100 [] from rfl]
  exact ⟨by omega, hs.2.2.1, by
    rcases hs.2.2.2.1 with ht | hend
    · exact Or.inl ht
    · exact Or.inr (by omega), hs.2.2.2.2⟩

/-! ## Empty payload -/

/-- Claim C10: the raw reply `\x1b]11;\x07` extracts the empty color spec
string, which the module body treats exactly like no reply at all: no RGB
triple, output `unknown`, exit status 2. -/
theorem claim_C10 :
    queryReply [27, 93, 49, 49, 59, 7] = some [] ∧
    pipelineRGB (some []) = .ok none ∧
    pipelineRGB (some []) = pipelineRGB none ∧
    (∀ out code, mainOutcome (some []) out code ↔ out = "unknown" ∧ code = 2) :=
  ⟨rfl, rfl, rfl, fun _ _ => Iff.rfl⟩

/-! ## Luminance classification -/

theorem linRel_det {c l1 l2 : ℝ} (h1 : linRel c l1) (h2 : linRel c l2) :
    l1 = l2 := by
  rcases h1 with ⟨hc1, rfl⟩ | ⟨hc1, rfl⟩ <;>
    rcases h2 with ⟨hc2, rfl⟩ | ⟨hc2, rfl⟩ <;> first | rfl | linarith

theorem linRel_total (c : ℝ) : ∃ l, linRel c l := by
  by_cases hc : c ≤ 0.04045
  · exact ⟨c / 12.92, Or.inl ⟨hc, rfl⟩⟩
  · exact ⟨((c + 0.055) / 1.055) ^ (2.4 : ℝ), Or.inr ⟨not_le.mp hc, rfl⟩⟩

theorem linRel_zero : linRel 0 0 := by
  left
  norm_num

theorem linRel_one : linRel 1 1 := by
  right
  refine ⟨by norm_num, ?_⟩
  rw [show ((1 : ℝ) + 0.055) / 1.055 = 1 by norm_num, Real.one_rpow]

/-- Claim C6: the run classifies `dark` exactly when the relative luminance
(channels normalized by 255, sRGB-linearized, summed with the BT.709
weights 0.2126/0.7152/0.0722) is strictly below the 0.5 threshold and
`light` otherwise; `(0,0,0)` has luminance 0 and is `dark`,
`(255,255,255)` has luminance 1 and is `light`; both relations are total,
so every triple receives a classification. -/
theorem claim_C6 :
    (∀ lum out, classifyRel lum out → (out = "dark" ↔ lum < 0.5)) ∧
    (∀ lum out, classifyRel lum out → (out = "light" ↔ 0.5 ≤ lum)) ∧
    (∀ lum, luminanceRel (0, 0, 0) lum → lum = 0 ∧ classifyRel lum "dark") ∧
    (∀ lum, luminanceRel (255, 255, 255) lum →
      lum = 1 ∧ classifyRel lum "light") ∧
    (∀ rgb : ℤ × ℤ × ℤ, ∃ lum out, luminanceRel rgb lum ∧ classifyRel lum out) := by
  have hthr : DARK_THRESHOLD = 0.5 := rfl
  refine ⟨?_, ?_, ?_, ?_, ?_⟩
  · intro lum out hc
    rcases hc with ⟨hlt, rfl⟩ | ⟨hge, rfl⟩
    · exact iff_of_true rfl (hthr ▸ hlt)
    · exact iff_of_false (by decide) (not_lt.mpr (hthr ▸ hge))
  · intro lum out hc
    rcases hc with ⟨hlt, rfl⟩ | ⟨hge, rfl⟩
    · exact iff_of_false (by decide) (not_le.mpr (hthr ▸ hlt))
    · exact iff_of_true rfl (hthr ▸ hge)
  · intro lum hl
    obtain ⟨lr, lg, lb, h1, h2, h3, rfl⟩ := hl
    norm_num at h1 h2 h3
    have e1 := linRel_det h1 linRel_zero
    have e2 := linRel_det h2 linRel_zero
    have e3 := linRel_det h3 linRel_zero
    subst e1 e2 e3
    refine ⟨by norm_num, Or.inl ⟨?_, rfl⟩⟩
    rw [hthr]
    norm_num
  · intro lum hl
    obtain ⟨lr, lg, lb, h1, h2, h3, rfl⟩ := hl
    norm_num at h1 h2 h3
    have e1 := linRel_det h1 linRel_one
    have e2 := linRel_det h2 linRel_one
    have e3 := linRel_det h3 linRel_one
    subst e1 e2 e3
    refine ⟨by norm_num, Or.inr ⟨?_, rfl⟩⟩
    rw [hthr]
    norm_num
  · intro rgb
    obtain ⟨lr, h1⟩ := linRel_total ((rgb.1 : ℝ) / 255)
    obtain ⟨lg, h2⟩ := linRel_total ((rgb.2.1 : ℝ) / 255)
    obtain ⟨lb, h3⟩ := linRel_total ((rgb.2.2 : ℝ) / 255)
    refine ⟨0.2126 * lr + 0.7152 * lg + 0.0722 * lb, ?_⟩
    by_cases hlum : 0.2126 * lr + 0.7152 * lg + 0.0722 * lb < DARK_THRESHOLD
    · exact ⟨"dark", ⟨lr, lg, lb, h1, h2, h3, rfl⟩, Or.inl ⟨hlum, rfl⟩⟩
    · exact ⟨"light", ⟨lr, lg, lb, h1, h2, h3, rfl⟩,
        Or.inr ⟨not_lt.mp hlum, rfl⟩⟩

end Lumos
